import Mathlib

/-!
Verification of the finance-app ingestion pipeline (app.py, src/data_loader.py,
src/config.py) against its specification.

The embedding models pandas tables as ordered lists of named columns holding
cells (string, rational number, or missing).  Amounts are rationals; dates are
either calendar timestamps (year, month, day, seconds within the day) or raw
epoch offsets (the value pandas produces when a numeric cell is fed to
to_datetime).  Fallible pandas operations (KeyError on a missing column label,
the raising variant of to_datetime, the .str accessor on a numeric column)
are modelled with Except.

Modelling boundaries, stated once here and referenced from the definitions:
the free-format date parser models the ISO subset of the dateutil grammar
(YYYY-MM-DD, dot separators, an optional HH:MM:SS part); strings outside that
subset are conservatively treated as unparsable.  CSV text round-trips of
non-date values (numbers, booleans, non-empty strings) are modelled as exact,
which matches pandas for the value shapes this pipeline produces; an
empty-string field, however, is written as an empty CSV cell and read back
as NaN, and the ledger-store model reflects that loss.
-/

namespace FinApp

/-! ### String utilities (structural, kernel-evaluable) -/

/-- Containment of one character list in another, as the Python `in` operator
on strings. -/
def listContains (l pat : List Char) : Bool :=
  (List.range (l.length + 1)).any (fun i => pat.isPrefixOf (l.drop i))

/-- Python `pat in s` substring test. -/
def strContains (s pat : String) : Bool :=
  listContains s.data pat.data

/-- Python `str.lower()`. -/
def lowerStr (s : String) : String :=
  ⟨s.data.map Char.toLower⟩

/-- Python `str.strip()`: drop whitespace from both ends. -/
def trimStr (s : String) : String :=
  ⟨((s.data.dropWhile Char.isWhitespace).reverse.dropWhile Char.isWhitespace).reverse⟩

/-- Python `str.endswith(pat)`. -/
def strEndsWith (s pat : String) : Bool :=
  pat.data.isSuffixOf s.data

/-- Python `str.replace(a, b)` for single characters. -/
def replaceChar (s : String) (a b : Char) : String :=
  ⟨s.data.map (fun c => if c = a then b else c)⟩

/-- Remove every occurrence of the given characters, as the chained
`str.replace(',', '').replace(' ', '')` used on Korean amount strings. -/
def stripCommasSpaces (s : String) : String :=
  ⟨s.data.filter (fun c => !(c = ',' || c = ' '))⟩

/-- Digit run to a natural number (most significant digit first). -/
def digitsToNat : List Char → ℕ → ℕ
  | [], acc => acc
  | c :: cs, acc => digitsToNat cs (acc * 10 + (c.toNat - 48))

/-- Non-empty all-digit run. -/
def allDigits (l : List Char) : Bool := !l.isEmpty && l.all Char.isDigit

/-- Decimal number parser modelling `pd.to_numeric` / Python `float()` on a
string: optional surrounding whitespace, optional sign, digits with an
optional fractional part.  Anything else is unparsable. -/
def parseDec (s : String) : Option ℚ :=
  let l := s.data.dropWhile Char.isWhitespace
  let l := (l.reverse.dropWhile Char.isWhitespace).reverse
  let (sign, l) : ℚ × List Char :=
    match l with
    | '-' :: rest => (-1, rest)
    | '+' :: rest => (1, rest)
    | _ => (1, l)
  match l.splitOn '.' with
  | [ip] => if allDigits ip then some (sign * digitsToNat ip 0) else none
  | [ip, fp] =>
      if allDigits ip && allDigits fp then
        some (sign * ((digitsToNat ip 0 : ℚ) + (digitsToNat fp 0 : ℚ) / (10 : ℚ) ^ fp.length))
      else none
  | _ => none

/-! ### Cells and tables -/

/-- A pandas cell: a string, a number, or missing (NaN / NaT / None). -/
inductive Cell where
  | str (s : String)
  | num (q : ℚ)
  | null
deriving DecidableEq

/-- The coercing numeric conversion `pd.to_numeric(..., errors='coerce')` on
one cell: numbers pass through, strings are parsed, failures become NaN. -/
def toNumericCell (c : Cell) : Option ℚ :=
  match c with
  | .num q => some q
  | .str s => parseDec s
  | .null => none

/-- Python `str(cell)` as far as the pipeline observes it: the string itself,
`"nan"` for a missing value, and a digit/slash rendering for numbers.  (The
exact float rendering is irrelevant to the pipeline: it is only ever
substring-tested against alphabetic or Korean markers, or fed to the date and
number parsers, and any numeral rendering fails those the same way.) -/
def cellStr : Cell → String
  | .str s => s
  | .num q => Int.repr q.num ++ (if q.den = 1 then "" else "/" ++ Nat.repr q.den)
  | .null => "nan"

/-- A raw pandas DataFrame: ordered column names plus row-major cells. -/
structure Table where
  names : List String
  rows : List (List Cell)
deriving DecidableEq

/-- Cell of a row under an exact column name (`df[name]`, elementwise); used
only where the pipeline has already checked `name in df.columns`. -/
def cellOf (names : List String) (row : List Cell) (col : String) : Cell :=
  match names.findIdx? (fun n => n = col) with
  | some j => row.getD j .null
  | none => .null

/-- Column j is of numeric dtype (`df.select_dtypes(include=['number'])`):
every cell is a number or missing. -/
def colIsNumeric (t : Table) (j : ℕ) : Bool :=
  t.rows.all (fun r => match r.getD j .null with
    | .str _ => false
    | _ => true)

/-- Indices of the numeric-dtype columns, in column order. -/
def numericIdxs (t : Table) : List ℕ :=
  (List.range t.names.length).filter (colIsNumeric t)

/-! ### Dates -/

/-- A parsed pandas timestamp: a calendar date with seconds-within-day, or a
raw epoch offset (what to_datetime yields on numeric input). -/
inductive DVal where
  | ymd (y m d secs : ℕ)
  | epoch (ns : ℚ)
deriving DecidableEq

/-- Days in a month of the proleptic Gregorian calendar. -/
def daysInMonth (y m : ℕ) : ℕ :=
  if m = 2 then (if y % 4 = 0 && (y % 100 ≠ 0 || y % 400 = 0) then 29 else 28)
  else if m = 4 || m = 6 || m = 9 || m = 11 then 30
  else 31

/-- Optional `HH:MM:SS` (or `HH:MM`) time-of-day to seconds. -/
def parseTimePart (l : List Char) : Option ℕ :=
  match l.splitOn ':' with
  | [h, mi] =>
      if allDigits h && allDigits mi && digitsToNat h 0 < 24 && digitsToNat mi 0 < 60 then
        some (digitsToNat h 0 * 3600 + digitsToNat mi 0 * 60)
      else none
  | [h, mi, s] =>
      if allDigits h && allDigits mi && allDigits s &&
          digitsToNat h 0 < 24 && digitsToNat mi 0 < 60 && digitsToNat s 0 < 60 then
        some (digitsToNat h 0 * 3600 + digitsToNat mi 0 * 60 + digitsToNat s 0)
      else none
  | _ => none

/-- Free-format date parse (`pd.to_datetime` on a string), modelling the ISO
subset of its grammar: `YYYY-MM-DD` or `YYYY.MM.DD`, optionally followed by a
time of day.  Unrepresentable strings are unparsable. -/
def parseDateFree (s : String) : Option DVal :=
  let l := (replaceChar s '.' '-').data
  let (datePart, timePart) : List Char × Option (List Char) :=
    match l.splitOn ' ' with
    | [d] => (d, none)
    | [d, t] => (d, some t)
    | _ => ([], none)
  match datePart.splitOn '-' with
  | [ys, ms, ds] =>
      if allDigits ys && allDigits ms && allDigits ds then
        let y := digitsToNat ys 0
        let m := digitsToNat ms 0
        let d := digitsToNat ds 0
        if 1 ≤ m && m ≤ 12 && 1 ≤ d && d ≤ daysInMonth y m then
          match timePart with
          | none => some (.ymd y m d 0)
          | some tp =>
              match parseTimePart tp with
              | some secs => some (.ymd y m d secs)
              | none => none
        else none
      else none
  | _ => none

/-- Strict `%d/%m/%Y` parse (`pd.to_datetime(..., format='%d/%m/%Y')`), used
on the Monzo Date column; non-string cells coerce to NaT. -/
def parseDMY (c : Cell) : Option DVal :=
  match c with
  | .str s =>
      match s.data.splitOn '/' with
      | [ds, ms, ys] =>
          if allDigits ds && allDigits ms && allDigits ys then
            let d := digitsToNat ds 0
            let m := digitsToNat ms 0
            let y := digitsToNat ys 0
            if 1 ≤ m && m ≤ 12 && 1 ≤ d && d ≤ daysInMonth y m then
              some (.ymd y m d 0)
            else none
          else none
      | _ => none
  | _ => none

/-- Days since 1970-01-01 of a proleptic Gregorian date (the civil-calendar
day-number algorithm; `/` on ℤ is floor division for positive divisors). -/
def daysFromCivil (y m d : ℤ) : ℤ :=
  let y2 := if m ≤ 2 then y - 1 else y
  let era := y2 / 400
  let yoe := y2 - era * 400
  let mp := if 2 < m then m - 3 else m + 9
  let doy := (153 * mp + 2) / 5 + d - 1
  let doe := yoe * 365 + yoe / 4 - yoe / 100 + doy
  era * 146097 + doe - 719468

/-- Chronological sort key in nanoseconds since the epoch. -/
def dateKey : DVal → ℚ
  | .ymd y m d secs => ((daysFromCivil y m d) * 86400 + (secs : ℤ)) * 1000000000
  | .epoch ns => ns

/-- Comparison used by `sort_values('date')`: chronological, missing dates
placed last (the pandas `na_position='last'` default). -/
def odateLe (a b : Option DVal) : Bool :=
  match a, b with
  | _, none => true
  | none, some _ => false
  | some x, some y => decide (dateKey x ≤ dateKey y)

/-! ### The canonical (normalized) record -/

/-- One row of the normalized schema produced by the normalizers; field names
follow the DataFrame column names of the source. -/
structure NRow where
  date : Option DVal
  time : Cell
  bank : String
  type : Cell
  merchant : Cell
  category : Cell
  amount_gbp : Option ℚ
  original_currency : String
  original_amount : Option ℚ
  is_income : Bool
deriving DecidableEq

/-- Fixed conversion rate from src/config.py (1 GBP = 1750 KRW). -/
def KRW_TO_GBP_RATE : ℚ := 1 / 1750

/-- Errors a pipeline call can raise: a pandas KeyError on a missing column
label, an unparsable value under the raising variant of to_datetime, and the
AttributeError of using the .str accessor on a numeric column. -/
inductive PdError where
  | keyError (col : String)
  | parseError
  | attrError
deriving DecidableEq

/-! ### Format detection (app.py normalize_uploaded_data, branch conditions) -/

/-- The three normalizer branches of normalize_uploaded_data. -/
inductive Fmt where
  | monzo
  | korean
  | generic
deriving DecidableEq

/-- Marker test for the Korean branch condition (app.py line 486): any column
name containing one of the localized markers. -/
def koreanColMarker (n : String) : Bool :=
  strContains n "가맹점" || strContains n "종류" || strContains n "원화금액"

/-- Branch selection of normalize_uploaded_data: exact membership of
Transaction ID or Date selects the Monzo branch; otherwise a Korean column
marker selects the Korean branch; otherwise the generic branch. -/
def detectFormat (t : Table) : Fmt :=
  if t.names.contains "Transaction ID" || t.names.contains "Date" then .monzo
  else if t.names.any koreanColMarker then .korean
  else .generic

/-! ### Monzo branch (app.py lines 456-483) -/

/-- Money In of one Monzo row after `pd.to_numeric(..).fillna(0)`. -/
def monzoMoneyIn (names : List String) (row : List Cell) : ℚ :=
  (toNumericCell (cellOf names row "Money In")).getD 0

/-- Amount of one Monzo row: the coerced explicit Amount column when present,
else `money_in - abs(money_out)` over the fillna(0) values. -/
def monzoAmt (names : List String) (row : List Cell) : Option ℚ :=
  if names.contains "Amount" then toNumericCell (cellOf names row "Amount")
  else some (monzoMoneyIn names row - |(toNumericCell (cellOf names row "Money Out")).getD 0|)

/-- Per-row mapping of the Monzo branch.  `pd.to_numeric(..).fillna(0)` is the
`getD 0`; `df.get(col, default)` is the if-contains pattern.  Only called once
the branch has established that an amount source exists (see monzoBranch). -/
def monzoRow (names : List String) (row : List Cell) : NRow :=
  let mi : ℚ := monzoMoneyIn names row
  let amt : Option ℚ := monzoAmt names row
  { date := if names.contains "Date" then parseDMY (cellOf names row "Date") else none
    time := if names.contains "Time" then cellOf names row "Time" else .str ""
    bank := "Monzo"
    type := if names.contains "Type" then cellOf names row "Type" else .str ""
    merchant := if names.contains "Name" then cellOf names row "Name" else .str ""
    category := if names.contains "Category" then cellOf names row "Category" else .str "Other"
    amount_gbp := amt
    original_currency := "GBP"
    original_amount := amt
    is_income :=
      if names.contains "Money In" then decide (0 < mi)
      else match amt with
        | some q => decide (0 < q)
        | none => false }

/-- Monzo branch of normalize_uploaded_data.  The returned flag records
whether a `date` column was ever assigned (it is not when the input lacks a
Date column, which makes the later dropna raise).  The two error cases mirror
the KeyErrors of lines 474 (`df['Money In']` with only Money Out present) and
478 (`normalized['amount_gbp']` read before any assignment). -/
def monzoBranch (t : Table) : Except PdError (Bool × List NRow) :=
  if !t.names.contains "Amount" && t.names.contains "Money Out" && !t.names.contains "Money In" then
    .error (.keyError "Money In")
  else if !t.names.contains "Amount" && !t.names.contains "Money Out" then
    .error (.keyError "amount_gbp")
  else
    .ok (t.names.contains "Date", t.rows.map (monzoRow t.names))

/-! ### Korean branch (app.py lines 486-554) -/

/-- Column indices resolved by the Korean (TravelWallet) branch; each is the
first column whose name matches the corresponding search of the source. -/
structure KCtx where
  krwIdx : Option ℕ
  lastNumIdx : Option ℕ
  dateIdx : Option ℕ
  timeIdx : Option ℕ
  typeIdx : Option ℕ
  merchantIdx : Option ℕ
deriving DecidableEq

/-- Resolve the Korean branch columns on a table. -/
def koreanCtx (t : Table) : KCtx :=
  { krwIdx := t.names.findIdx? (fun n => strContains n "원화금액" || strContains n "KRW")
    lastNumIdx := (numericIdxs t).getLast?
    dateIdx := t.names.findIdx? (fun n => strContains n "날짜" || strContains (lowerStr n) "date")
    timeIdx := t.names.findIdx? (fun n => strContains n "시간" || strContains (lowerStr n) "time")
    typeIdx := t.names.findIdx? (fun n => strContains n "종류")
    merchantIdx := t.names.findIdx? (fun n => strContains n "가맹점") }

/-- KRW amount of one row: the located amount column parsed after stripping
commas and spaces (via astype(str), so numeric cells pass through and missing
cells fail); falling back to the last numeric column under plain to_numeric;
falling back to the constant 0 series. -/
def koreanKrw (c : KCtx) (row : List Cell) : Option ℚ :=
  match c.krwIdx with
  | some j =>
      match row.getD j .null with
      | .num q => some q
      | .str s => parseDec (stripCommasSpaces s)
      | .null => none
  | none =>
      match c.lastNumIdx with
      | some j => toNumericCell (row.getD j .null)
      | none => some 0

/-- Case-insensitive substring match against the top-up vocabulary
(`.str.contains('충전|charge', case=False, na=False)`). -/
def koreanIncomeMatch (s : String) : Bool :=
  strContains (lowerStr s) "충전" || strContains (lowerStr s) "charge"

/-- The `fillna(default)` used for the merchant and category columns. -/
def cellFillna (c : Cell) (dflt : String) : Cell :=
  match c with
  | .null => .str dflt
  | c => c

/-- Income flag of one Korean-branch row: the marker match on the type
column, false when no type column was found (line 541). -/
def koreanInc (c : KCtx) (row : List Cell) : Bool :=
  match c.typeIdx with
  | some j => koreanIncomeMatch (cellStr (row.getD j .null))
  | none => false

/-- Per-row mapping of the Korean branch.  The date goes through astype(str),
dot-to-dash replacement and a coercing free-format parse; is_income comes
from the type column marker match; spending rows get their converted amount
flipped to negative via `-abs` (line 554). -/
def koreanRow (c : KCtx) (row : List Cell) : NRow :=
  let krw := koreanKrw c row
  let inc : Bool := koreanInc c row
  let oa := krw.map (fun q => |q|)
  let g0 := oa.map (fun q => q * KRW_TO_GBP_RATE)
  { date :=
      match c.dateIdx with
      | some j => parseDateFree (cellStr (row.getD j .null))
      | none => none
    time :=
      match c.timeIdx with
      | some j => .str (cellStr (row.getD j .null))
      | none => .str ""
    bank := "TravelWallet (Korea)"
    type :=
      match c.typeIdx with
      | some j => .str (cellStr (row.getD j .null))
      | none => .str ""
    merchant :=
      match c.merchantIdx with
      | some j => cellFillna (row.getD j .null) "Unknown"
      | none => .str "Unknown"
    category :=
      match c.merchantIdx with
      | some j => cellFillna (row.getD j .null) "Other"
      | none => .str "Other"
    amount_gbp := if inc then g0 else g0.map (fun q => -|q|)
    original_currency := "KRW"
    original_amount := oa
    is_income := inc }

/-! ### Generic branch (app.py lines 557-595) -/

/-- Column indices resolved by the generic branch. -/
structure GCtx where
  dateIdx : Option ℕ
  amtIdx : Option ℕ
  firstNumIdx : Option ℕ
  catIdx : Option ℕ
  nameIdx : Option ℕ
deriving DecidableEq

/-- Resolve the generic branch columns: case-insensitive English substring
searches, with a first-numeric-column fallback for the amount. -/
def genericCtx (t : Table) : GCtx :=
  { dateIdx := t.names.findIdx? (fun n => strContains (lowerStr n) "date")
    amtIdx := t.names.findIdx? (fun n =>
      strContains (lowerStr n) "amount" || strContains (lowerStr n) "value")
    firstNumIdx := (numericIdxs t).head?
    catIdx := t.names.findIdx? (fun n =>
      strContains (lowerStr n) "category" || strContains (lowerStr n) "type")
    nameIdx := t.names.findIdx? (fun n =>
      strContains (lowerStr n) "name" || strContains (lowerStr n) "merchant" ||
      strContains (lowerStr n) "description") }

/-- Coercing `pd.to_datetime(col, errors='coerce')` on a raw cell: strings
through the free-format parse, numbers as epoch offsets, failures NaT. -/
def parseDateCoerce (c : Cell) : Option DVal :=
  match c with
  | .str s => parseDateFree s
  | .num q => some (.epoch q)
  | .null => none

/-- Amount of one generic-branch row: a named amount column (coerced), else
the raw first numeric column, else the scalar 0. -/
def genericAmt (c : GCtx) (row : List Cell) : Option ℚ :=
  match c.amtIdx with
  | some j => toNumericCell (row.getD j .null)
  | none =>
      match c.firstNumIdx with
      | some j =>
          match row.getD j .null with
          | .num q => some q
          | _ => none
      | none => some 0

/-- Per-row mapping of the generic branch.  The amount falls back from a
named amount column (coerced) to the raw first numeric column to the scalar
0; is_income is `amount_gbp > 0` (false on NaN). -/
def genericRow (c : GCtx) (row : List Cell) : NRow :=
  let amt : Option ℚ := genericAmt c row
  { date :=
      match c.dateIdx with
      | some j => parseDateCoerce (row.getD j .null)
      | none => none
    time := .str ""
    bank := "Uploaded"
    type := .str ""
    merchant :=
      match c.nameIdx with
      | some j => row.getD j .null
      | none => .str ""
    category :=
      match c.catIdx with
      | some j => row.getD j .null
      | none => .str "Other"
    amount_gbp := amt
    original_currency := "GBP"
    original_amount := amt
    is_income :=
      match amt with
      | some q => decide (0 < q)
      | none => false }

/-! ### normalize_uploaded_data (app.py lines 451-600) -/

/-- The final clean-up `dropna(subset=['date','amount_gbp'], how='all')`:
keep a row unless both its date and its amount are missing. -/
def dropBothMissing (l : List NRow) : List NRow :=
  l.filter (fun r => !(r.date.isNone && r.amount_gbp.isNone))

/-- Elementwise Korean branch output before the final dropna. -/
def koreanRows (t : Table) : List NRow :=
  t.rows.map (koreanRow (koreanCtx t))

/-- Elementwise generic branch output before the final dropna. -/
def genericRows (t : Table) : List NRow :=
  t.rows.map (genericRow (genericCtx t))

/-- The pre-dropna normalized rows of whichever branch the table selects
(for the Monzo branch, the rows the branch builds when it does not raise). -/
def preNormRows (t : Table) : List NRow :=
  match detectFormat t with
  | .monzo => t.rows.map (monzoRow t.names)
  | .korean => koreanRows t
  | .generic => genericRows t

/-- Full normalizer dispatch.  The source_type argument is accepted and
ignored exactly as in the source.  When the Monzo branch never assigned a
date column, the dropna on the missing `date` label raises a KeyError. -/
def normalize_uploaded_data (t : Table) (source_type : String) : Except PdError (List NRow) :=
  let _ := source_type
  match detectFormat t with
  | .monzo =>
      match monzoBranch t with
      | .error e => .error e
      | .ok (hasDateCol, rows) =>
          if hasDateCol then .ok (dropBothMissing rows) else .error (.keyError "date")
  | .korean => .ok (dropBothMissing (koreanRows t))
  | .generic => .ok (dropBothMissing (genericRows t))

/-! ### load_korean_excel (src/data_loader.py lines 66-163) -/

/-- Effectful elementwise map over Except (a raising pandas column
operation). -/
def mapExcept (f : α → Except PdError β) : List α → Except PdError (List β)
  | [] => .ok []
  | x :: xs =>
      match f x with
      | .error e => .error e
      | .ok b =>
          match mapExcept f xs with
          | .error e => .error e
          | .ok bs => .ok (b :: bs)

/-- The raising `pd.to_datetime(df[date_col])` (no errors='coerce') on one
cell: missing stays NaT, strings must parse, numbers become epoch offsets. -/
def parseDateStrict (c : Cell) : Except PdError (Option DVal) :=
  match c with
  | .null => .ok none
  | .str s =>
      match parseDateFree s with
      | some d => .ok (some d)
      | none => .error .parseError
  | .num q => .ok (some (.epoch q))

/-- Type column search of load_korean_excel (also used to state its
is_income rule). -/
def kFileTypeIdx (t : Table) : Option ℕ :=
  t.names.findIdx? (fun n => strContains n "종류" || strContains (lowerStr n) "type")

/-- Merchant column search of load_korean_excel. -/
def kFileMerchantIdx (t : Table) : Option ℕ :=
  t.names.findIdx? (fun n => strContains n "가맹점" || strContains (lowerStr n) "merchant")

/-- Date column search of load_korean_excel. -/
def kFileDateIdx (t : Table) : Option ℕ :=
  t.names.findIdx? (fun n => strContains n "날짜" || strContains (lowerStr n) "date")

/-- The exact-equality income test of load_korean_excel
(`df[type].str.lower().str.strip() == 'charge'`); non-string cells compare
unequal. -/
def chargeEq (c : Cell) : Bool :=
  match c with
  | .str s => trimStr (lowerStr s) = "charge"
  | _ => false

/-- One normalized row of load_korean_excel, given the resolved amount (aj),
merchant (mj) and type (tj) columns and the already-parsed date.  The amount
keeps the sign of the source cell: `amount_gbp = original_amount * rate` with
no flipping, unlike the app.py Korean branch. -/
def kFileRow (aj : ℕ) (mj tj : Option ℕ) (row : List Cell) (d : Option DVal) : NRow :=
  let oa : Option ℚ :=
    match row.getD aj .null with
    | .num q => some q
    | _ => none
  let g := oa.map (fun q => q * KRW_TO_GBP_RATE)
  { date := d
    time := .str ""
    bank := "TravelWallet (Korea)"
    type :=
      match tj with
      | some j => row.getD j .null
      | none => .str ""
    merchant :=
      match mj with
      | some j => row.getD j .null
      | none => .str ""
    category :=
      match mj with
      | some j => row.getD j .null
      | none => .str ""
    amount_gbp := g
    original_currency := "KRW"
    original_amount := oa
    is_income :=
      match tj with
      | some j => chargeEq (row.getD j .null)
      | none =>
          match g with
          | some q => decide (0 < q)
          | none => false }

/-- Date of one load_korean_excel row under the raising to_datetime (NaT
when no date column was found). -/
def kFileDateE (dj : Option ℕ) (row : List Cell) : Except PdError (Option DVal) :=
  match dj with
  | some j => parseDateStrict (row.getD j .null)
  | none => .ok none

/-- One row of load_korean_excel with its raising date parse. -/
def kFileRowE (aj : ℕ) (mj tj dj : Option ℕ) (row : List Cell) : Except PdError NRow :=
  match kFileDateE dj row with
  | .error e => .error e
  | .ok d => .ok (kFileRow aj mj tj row d)

/-- The data_loader.py KnownFormatB normalizer.  Empty input and the absence
of any numeric column yield an empty result; the amount column is the last
numeric column; the raising date parse propagates; the .str accessor on a
numeric type column raises AttributeError.  No row is ever dropped. -/
def load_korean_excel (t : Table) : Except PdError (List NRow) :=
  if t.rows.isEmpty then .ok []
  else
    match (numericIdxs t).getLast? with
    | none => .ok []
    | some aj =>
        match mapExcept
            (kFileRowE aj (kFileMerchantIdx t) (kFileTypeIdx t) (kFileDateIdx t)) t.rows with
        | .error e => .error e
        | .ok rows =>
            match kFileTypeIdx t with
            | some j => if colIsNumeric t j then .error .attrError else .ok rows
            | none => .ok rows

/-! ### Ledger merge, store and upload endpoint -/

/-- Accumulator pass of `DataFrame.drop_duplicates()`: keep the first
occurrence of each full record, remembering what has been seen. -/
def dropDupGo (seen : List NRow) : List NRow → List NRow
  | [] => []
  | x :: xs => if x ∈ seen then dropDupGo seen xs else x :: dropDupGo (x :: seen) xs

/-- Exact full-record de-duplication, first occurrences kept. -/
def dropDuplicates (l : List NRow) : List NRow := dropDupGo [] l

/-- The merge of api_upload (app.py lines 417-423): concatenate the existing
ledger with the new records and drop exact duplicates.  No sorting. -/
def apiMerge (existing new : List NRow) : List NRow :=
  dropDuplicates (existing ++ new)

/-- The `sort_values('date')` of normalize_and_merge: chronological ascending
with missing dates last. -/
def sortByDate (l : List NRow) : List NRow :=
  l.mergeSort (fun a b => odateLe a.date b.date)

/-- The CLI-side merge (src/data_loader.py lines 166-194): concatenate the
non-empty inputs and sort by date.  No de-duplication.  (Skipping empty
inputs before concatenation does not change the concatenation.) -/
def normalize_and_merge (monzo_df korean_df : List NRow) : List NRow :=
  sortByDate (monzo_df ++ korean_df)

/-- Day-precision truncation applied by `strftime('%Y-%m-%d')` when the
ledger is saved: time of day is dropped; a raw epoch offset is cut to the
start of its day. -/
def truncDVal : DVal → DVal
  | .ymd y m d _ => .ymd y m d 0
  | .epoch ns => .epoch ((⌊ns / (86400000000000 : ℚ)⌋ : ℤ) * 86400000000000)

/-- The ledger store save (src/data_loader.py lines 197-211): each record is
written out as-is with the date formatted as YYYY-MM-DD.  Per the modelling
note at the top of the file, the CSV text layer is modelled as exact for
numbers, booleans and non-empty strings, so saving is recorded as
day-truncating the dates; the loss of empty-string fields happens on reload
(see load_combined_csv).  No sorting, no de-duplication. -/
def save_combined_csv (l : List NRow) : List NRow :=
  l.map (fun r => { r with date := r.date.map truncDVal })

/-- Marker test of the header scan: any non-missing cell whose text contains
one of the localized field-name markers. -/
def rowHasMarker (r : List Cell) : Bool :=
  r.any (fun c =>
    match c with
    | .null => false
    | c =>
        strContains (cellStr c) "날짜" || strContains (cellStr c) "종류" ||
        strContains (cellStr c) "가맹점")

/-- Scan loop over row indices i, i+1, ... with the given number of rows
still to inspect. -/
def findHeaderGo (rows : List (List Cell)) : ℕ → ℕ → Option ℕ
  | _, 0 => none
  | i, fuel + 1 =>
      if rowHasMarker (rows.getD i []) then some i
      else findHeaderGo rows (i + 1) fuel

/-- Header-row detection: the first row among the first 15 containing a
marker cell (the nrows=15 preview read caps the scan at 15 rows). -/
def detectHeaderRow (rows : List (List Cell)) : Option ℕ :=
  findHeaderGo rows 0 (min 15 rows.length)

/-- Reading a spreadsheet with its header on row h (`pd.read_excel` with
header=h): column names from the str() of row h, data from the rows below. -/
def tableWithHeader (rows : List (List Cell)) (h : ℕ) : Table :=
  { names := (rows.getD h []).map cellStr
    rows := rows.drop (h + 1) }

/-- The spreadsheet read of api_upload: use the detected header row, else
read with the default top-row header. -/
def readSpreadsheet (rows : List (List Cell)) : Table :=
  tableWithHeader rows (match detectHeaderRow rows with
    | some h => h
    | none => 0)

/-! ### api_upload (app.py lines 326-448) -/

/-- Failure outcomes of the upload endpoint, one per return-with-error site;
normError carries an exception caught by the outer handler (the 500 path). -/
inductive UpErr where
  | noFile
  | noFilename
  | passwordProtected
  | needMsoffcrypto
  | readFailed
  | unsupportedFormat
  | emptyData
  | normError (e : PdError)
deriving DecidableEq

/-- Success payload of the upload endpoint. -/
structure UpOk where
  added : ℕ
  total : ℕ
  bank : String
deriving DecidableEq

/-- Core control flow of api_upload up to and including the merge.  The
filename decides the container branch by extension on its lower-cased form;
CSV parsing failure is modelled by csvParse = none; the encrypted-spreadsheet
path needs msoffcrypto and a successful empty-password decrypt (which then
reads with the default header, skipping the header scan); the merge
concatenates with the existing ledger (when one loads) and drops exact
duplicates.  Every failure is returned before any save happens. -/
def api_upload_core (hasFile : Bool) (filename : String) (csvParse : Option Table)
    (excelRows : List (List Cell)) (encrypted hasMs decryptOk : Bool)
    (existing : Option (List NRow)) : Except UpErr (UpOk × List NRow) :=
  if !hasFile then .error .noFile
  else if filename = "" then .error .noFilename
  else
    let fn := lowerStr filename
    let tabE : Except UpErr Table :=
      if strEndsWith fn ".csv" then
        match csvParse with
        | some t => .ok t
        | none => .error .readFailed
      else if strEndsWith fn ".xlsx" || strEndsWith fn ".xls" then
        if encrypted then
          if !hasMs then .error .needMsoffcrypto
          else if !decryptOk then .error .passwordProtected
          else .ok (tableWithHeader excelRows 0)
        else .ok (readSpreadsheet excelRows)
      else .error .unsupportedFormat
    match tabE with
    | .error e => .error e
    | .ok tab =>
        match normalize_uploaded_data tab
            (if strEndsWith fn ".csv" then "csv" else "excel") with
        | .error e => .error (.normError e)
        | .ok newRows =>
            if newRows.isEmpty then .error .emptyData
            else
              let combined :=
                match existing with
                | some ex => apiMerge ex newRows
                | none => newRows
              .ok ({ added := newRows.length
                     total := combined.length
                     bank :=
                       match newRows.head? with
                       | some r => r.bank
                       | none => "Unknown" }, combined)

/-- The upload endpoint with its effect on the persisted ledger: on success
the merged ledger is saved; on any failure the previously persisted ledger is
left untouched. -/
def api_upload (hasFile : Bool) (filename : String) (csvParse : Option Table)
    (excelRows : List (List Cell)) (encrypted hasMs decryptOk : Bool)
    (existing : Option (List NRow)) : Except UpErr UpOk × Option (List NRow) :=
  match api_upload_core hasFile filename csvParse excelRows encrypted hasMs decryptOk existing with
  | .error e => (.error e, existing)
  | .ok (o, combined) => (.ok o, some (save_combined_csv combined))

/-- Whether a ledger is in ascending date order (ties unconstrained), the
order the specification requires of the persisted ledger. -/
def ledgerSortedByDate (l : List NRow) : Prop :=
  l.Pairwise (fun a b => odateLe a.date b.date = true)

/-- Marker match on a stored type cell of the app.py Korean branch (the
branch stores the astype(str) text, so only string cells can match). -/
def koreanIncomeCell (c : Cell) : Bool :=
  match c with
  | .str s => koreanIncomeMatch s
  | _ => false

/-! ### Helper lemmas -/

lemma mem_dropDupGo {seen l : List NRow} {a : NRow} :
    a ∈ dropDupGo seen l ↔ a ∈ l ∧ a ∉ seen := by
  induction l generalizing seen with
  | nil => simp [dropDupGo]
  | cons x xs ih =>
    by_cases hx : x ∈ seen
    · rw [dropDupGo, if_pos hx, ih]
      constructor
      · rintro ⟨h, hn⟩
        exact ⟨List.mem_cons_of_mem _ h, hn⟩
      · rintro ⟨h, hn⟩
        rcases List.mem_cons.mp h with h | h
        · exact absurd (h ▸ hx) hn
        · exact ⟨h, hn⟩
    · rw [dropDupGo, if_neg hx]
      constructor
      · intro h
        rcases List.mem_cons.mp h with h | h
        · exact ⟨h ▸ List.mem_cons_self _ _, h ▸ hx⟩
        · rcases ih.mp h with ⟨h1, h2⟩
          refine ⟨List.mem_cons_of_mem _ h1, fun hs => h2 (List.mem_cons_of_mem _ hs)⟩
      · rintro ⟨h, hn⟩
        rcases List.mem_cons.mp h with h | h
        · exact h ▸ List.mem_cons_self _ _
        · by_cases hax : a = x
          · exact hax ▸ List.mem_cons_self _ _
          · exact List.mem_cons_of_mem _ (ih.mpr ⟨h, by
              intro hs
              rcases List.mem_cons.mp hs with h' | h'
              · exact hax h'
              · exact hn h'⟩)

lemma nodup_dropDupGo (seen l : List NRow) : (dropDupGo seen l).Nodup := by
  induction l generalizing seen with
  | nil => simp [dropDupGo]
  | cons x xs ih =>
    by_cases hx : x ∈ seen
    · rw [dropDupGo, if_pos hx]
      exact ih seen
    · rw [dropDupGo, if_neg hx]
      refine List.nodup_cons.mpr ⟨fun hmem => ?_, ih (x :: seen)⟩
      exact (mem_dropDupGo.mp hmem).2 (List.mem_cons_self _ _)

lemma sublist_dropDupGo (seen l : List NRow) : (dropDupGo seen l).Sublist l := by
  induction l generalizing seen with
  | nil => simp [dropDupGo]
  | cons x xs ih =>
    by_cases hx : x ∈ seen
    · rw [dropDupGo, if_pos hx]
      exact (ih seen).cons x
    · rw [dropDupGo, if_neg hx]
      exact (ih (x :: seen)).cons₂ x

lemma mem_dropDuplicates {l : List NRow} {a : NRow} :
    a ∈ dropDuplicates l ↔ a ∈ l := by
  rw [dropDuplicates, mem_dropDupGo]
  simp

lemma mapExcept_ok_length {f : α → Except PdError β} :
    ∀ {l : List α} {bs : List β}, mapExcept f l = .ok bs → bs.length = l.length := by
  intro l
  induction l with
  | nil =>
    intro bs h
    rw [mapExcept] at h
    cases h
    rfl
  | cons x xs ih =>
    intro bs h
    rw [mapExcept] at h
    cases hfx : f x with
    | error e => rw [hfx] at h; cases h
    | ok b =>
      rw [hfx] at h
      cases hxs : mapExcept f xs with
      | error e => rw [hxs] at h; cases h
      | ok bs' =>
        rw [hxs] at h
        cases h
        simp [ih hxs]

lemma mapExcept_ok_mem {f : α → Except PdError β} :
    ∀ {l : List α} {bs : List β}, mapExcept f l = .ok bs →
      ∀ b ∈ bs, ∃ a ∈ l, f a = .ok b := by
  intro l
  induction l with
  | nil =>
    intro bs h b hb
    rw [mapExcept] at h
    cases h
    cases hb
  | cons x xs ih =>
    intro bs h b hb
    rw [mapExcept] at h
    cases hfx : f x with
    | error e => rw [hfx] at h; cases h
    | ok b' =>
      rw [hfx] at h
      cases hxs : mapExcept f xs with
      | error e => rw [hxs] at h; cases h
      | ok bs' =>
        rw [hxs] at h
        cases h
        rcases List.mem_cons.mp hb with hb | hb
        · exact ⟨x, List.mem_cons_self _ _, hb ▸ hfx⟩
        · rcases ih hxs b hb with ⟨a, ha, hfa⟩
          exact ⟨a, List.mem_cons_of_mem _ ha, hfa⟩

lemma odateLe_trans (a b c : Option DVal) :
    odateLe a b = true → odateLe b c = true → odateLe a c = true := by
  cases a <;> cases b <;> cases c <;> simp [odateLe] <;> intros <;> linarith

lemma odateLe_total (a b : Option DVal) : (odateLe a b || odateLe b a) = true := by
  cases a <;> cases b <;> simp [odateLe]
  exact le_total _ _

lemma koreanRow_amount_eq (c : KCtx) (row : List Cell) :
    (koreanRow c row).amount_gbp =
      (if koreanInc c row then
        ((koreanKrw c row).map (fun v => |v|)).map (fun v => v * KRW_TO_GBP_RATE)
      else
        (((koreanKrw c row).map (fun v => |v|)).map (fun v => v * KRW_TO_GBP_RATE)).map
          (fun v => -|v|)) := rfl

lemma koreanRow_income_eq (c : KCtx) (row : List Cell) :
    (koreanRow c row).is_income = koreanInc c row := rfl

lemma koreanRow_amount_sign (c : KCtx) (row : List Cell) (q : ℚ)
    (hq : (koreanRow c row).amount_gbp = some q) :
    if (koreanRow c row).is_income then 0 ≤ q else q ≤ 0 := by
  rw [koreanRow_amount_eq] at hq
  rw [koreanRow_income_eq]
  by_cases hb : koreanInc c row = true
  · rw [if_pos hb] at hq
    rw [hb, if_pos rfl]
    rcases hk : koreanKrw c row with _ | k
    · rw [hk] at hq
      simp at hq
    · rw [hk] at hq
      simp only [Option.map_some', Option.some.injEq] at hq
      subst hq
      exact mul_nonneg (abs_nonneg _) (by norm_num [KRW_TO_GBP_RATE])
  · have hb' : koreanInc c row = false := Bool.not_eq_true _ ▸ Bool.of_not_eq_true hb
    rw [if_neg hb] at hq
    rw [hb']
    simp only [Bool.false_eq_true, if_false]
    rcases hk : koreanKrw c row with _ | k
    · rw [hk] at hq
      simp at hq
    · rw [hk] at hq
      simp only [Option.map_some', Option.some.injEq] at hq
      subst hq
      exact neg_nonpos.mpr (abs_nonneg _)

lemma koreanRow_income_iff (c : KCtx) (row : List Cell) (q : ℚ)
    (hq : (koreanRow c row).amount_gbp = some q) (h0 : q ≠ 0) :
    ((koreanRow c row).is_income = true ↔ 0 < q) := by
  have h := koreanRow_amount_sign c row q hq
  by_cases hb : (koreanRow c row).is_income = true
  · rw [if_pos hb] at h
    rw [hb]
    simp only [true_iff]
    exact lt_of_le_of_ne h (Ne.symm h0)
  · rw [if_neg hb] at h
    simp only [Bool.not_eq_true] at hb
    rw [hb]
    simp only [Bool.false_eq_true, false_iff, not_lt]
    exact h

lemma koreanRow_income_type (c : KCtx) (row : List Cell) :
    (koreanRow c row).is_income = koreanIncomeCell ((koreanRow c row).type) := by
  have hm : koreanIncomeMatch "" = false := by decide
  cases h : c.typeIdx with
  | none => simp [koreanRow, koreanInc, koreanIncomeCell, h, hm]
  | some j => simp [koreanRow, koreanInc, koreanIncomeCell, h]

lemma genericRow_income_iff (c : GCtx) (row : List Cell) (q : ℚ)
    (hq : (genericRow c row).amount_gbp = some q) :
    ((genericRow c row).is_income = true ↔ 0 < q) := by
  have ha : (genericRow c row).amount_gbp = genericAmt c row := rfl
  have hi : (genericRow c row).is_income =
      (match genericAmt c row with
        | some v => decide (0 < v)
        | none => false) := rfl
  rw [ha] at hq
  rw [hi, hq]
  simp

lemma monzoRow_income_iff (names : List String) (row : List Cell) (q : ℚ)
    (hMI : names.contains "Money In" = false)
    (hq : (monzoRow names row).amount_gbp = some q) :
    ((monzoRow names row).is_income = true ↔ 0 < q) := by
  have ha : (monzoRow names row).amount_gbp = monzoAmt names row := rfl
  have hi : (monzoRow names row).is_income =
      (if names.contains "Money In" then decide (0 < monzoMoneyIn names row)
       else
         match monzoAmt names row with
         | some v => decide (0 < v)
         | none => false) := rfl
  rw [ha] at hq
  rw [hi, hMI, hq]
  simp

lemma kFileRow_amount_rate (aj : ℕ) (mj tj : Option ℕ) (row : List Cell) (d : Option DVal) :
    (kFileRow aj mj tj row d).amount_gbp =
      (kFileRow aj mj tj row d).original_amount.map (fun v => v * KRW_TO_GBP_RATE) := rfl

lemma kFileRow_income_type (aj : ℕ) (mj : Option ℕ) (j : ℕ) (row : List Cell) (d : Option DVal) :
    (kFileRow aj mj (some j) row d).is_income =
      chargeEq ((kFileRow aj mj (some j) row d).type) := rfl

lemma findHeaderGo_some (rows : List (List Cell)) :
    ∀ fuel i j, findHeaderGo rows i fuel = some j →
      i ≤ j ∧ j < i + fuel ∧ rowHasMarker (rows.getD j []) = true ∧
      ∀ k, i ≤ k → k < j → rowHasMarker (rows.getD k []) = false := by
  intro fuel
  induction fuel with
  | zero =>
    intro i j h
    rw [findHeaderGo] at h
    cases h
  | succ n ih =>
    intro i j h
    rw [findHeaderGo] at h
    cases hm : rowHasMarker (rows.getD i []) with
    | true =>
      rw [hm] at h
      simp only [if_pos] at h
      cases h
      refine ⟨le_refl _, by omega, hm, fun k hk1 hk2 => absurd hk1 (by omega)⟩
    | false =>
      rw [hm] at h
      simp only [Bool.false_eq_true, if_false] at h
      obtain ⟨h1, h2, h3, h4⟩ := ih (i + 1) j h
      refine ⟨by omega, by omega, h3, ?_⟩
      intro k hk1 hk2
      by_cases hki : k = i
      · exact hki ▸ hm
      · exact h4 k (by omega) hk2

lemma findHeaderGo_take (rows : List (List Cell)) :
    ∀ fuel i, i + fuel ≤ 15 → findHeaderGo (rows.take 15) i fuel = findHeaderGo rows i fuel := by
  intro fuel
  induction fuel with
  | zero =>
    intro i _
    rw [findHeaderGo, findHeaderGo]
  | succ n ih =>
    intro i h
    have hi : i < 15 := by omega
    have hget : (rows.take 15).getD i [] = rows.getD i [] := by
      simp [List.getD_eq_getElem?_getD, List.getElem?_take, hi]
    rw [findHeaderGo, findHeaderGo, hget, ih (i + 1) (by omega)]

lemma normalize_korean_eq (t : Table) (s : String) (h : detectFormat t = .korean) :
    normalize_uploaded_data t s = .ok (dropBothMissing (koreanRows t)) := by
  simp [normalize_uploaded_data, h]

lemma normalize_generic_eq (t : Table) (s : String) (h : detectFormat t = .generic) :
    normalize_uploaded_data t s = .ok (dropBothMissing (genericRows t)) := by
  simp [normalize_uploaded_data, h]

lemma monzoBranch_ok_eq (t : Table) (flag : Bool) (brows : List NRow)
    (h : monzoBranch t = .ok (flag, brows)) :
    flag = t.names.contains "Date" ∧ brows = t.rows.map (monzoRow t.names) := by
  rw [monzoBranch] at h
  split at h
  · cases h
  · split at h
    · cases h
    · cases h
      exact ⟨rfl, rfl⟩

/-! ### Claim theorems -/

/-- Input table of the C6 scenario: a Monzo export with no Amount column,
Money In = 0 and Money Out = 12.50. -/
def C6table : Table :=
  { names := ["Date", "Money In", "Money Out"]
    rows := [[.str "01/02/2024", .num 0, .num (25/2)]] }

/-- Normalized record the C6 scenario produces. -/
def C6rec : NRow :=
  { date := some (.ymd 2024 2 1 0), time := .str "", bank := "Monzo",
    type := .str "", merchant := .str "", category := .str "Other",
    amount_gbp := some (-(25/2)), original_currency := "GBP",
    original_amount := some (-(25/2)), is_income := false }

/-- C6: normalizing a KnownFormatA (Monzo) row with no explicit Amount
column, Money In = 0 and Money Out = 12.50 yields amount_base = -12.50
(money_in minus the absolute value of money_out) and is_income = false. -/
theorem C6_theorem :
    normalize_uploaded_data C6table "csv" = .ok [C6rec] ∧
    C6rec.amount_gbp = some (0 - |(25/2 : ℚ)|) ∧ C6rec.is_income = false := by
  refine ⟨?_, ?_, rfl⟩
  · have hr : C6table.rows = [[.str "01/02/2024", .num 0, .num (25/2)]] := rfl
    have hn : C6table.names = ["Date", "Money In", "Money Out"] := rfl
    have h1 : detectFormat C6table = .monzo := by decide
    simp [normalize_uploaded_data, h1, hr, hn, C6rec, monzoBranch, monzoRow, monzoAmt,
      monzoMoneyIn, cellOf, toNumericCell, parseDec, parseDMY, dropBothMissing,
      List.findIdx?, allDigits, digitsToNat, daysInMonth, List.splitOn, List.contains]
    norm_num
  · show some (-(25/2) : ℚ) = some (0 - |(25/2 : ℚ)|)
    rw [abs_of_pos (by norm_num : (0:ℚ) < 25/2)]
    norm_num

/-- Input table of the C5 scenario: a TravelWallet sheet with a 충전 (charge)
row of 50000 KRW. -/
def C5table : Table :=
  { names := ["날짜(Date)", "종류(Payment type)", "가맹점 이름", "원화금액(KRW)"]
    rows := [[.str "2025.01.02", .str "충전", .str "Shop", .num 50000]] }

/-- Normalized record the C5 scenario produces. -/
def C5rec : NRow :=
  { date := some (.ymd 2025 1 2 0), time := .str "", bank := "TravelWallet (Korea)",
    type := .str "충전", merchant := .str "Shop", category := .str "Shop",
    amount_gbp := some (200/7), original_currency := "KRW",
    original_amount := some 50000, is_income := true }

/-- C5: normalizing a KnownFormatB row with type 충전 and original amount
50000 KRW at rate 1/1750 yields a positive amount_base within 0.01 of 28.57
and is_income = true. -/
theorem C5_theorem :
    ∃ r q, normalize_uploaded_data C5table "excel" = .ok [r] ∧
      r.is_income = true ∧ r.original_amount = some 50000 ∧
      r.amount_gbp = some q ∧ 0 < q ∧ |q - 2857/100| < 1/100 := by
  refine ⟨C5rec, 200/7, ?_, rfl, rfl, rfl, by norm_num, ?_⟩
  · have h1 : detectFormat C5table = .korean := by decide
    have h2 : koreanCtx C5table = ⟨some 3, some 3, some 0, none, some 1, some 2⟩ := by decide
    have h3 : koreanIncomeMatch "충전" = true := by decide
    have h4 : parseDateFree "2025.01.02" = some (.ymd 2025 1 2 0) := by decide
    have hr : C5table.rows = [[.str "2025.01.02", .str "충전", .str "Shop", .num 50000]] := rfl
    simp [normalize_korean_eq C5table "excel" h1, h2, h3, h4, hr, koreanRows, koreanRow,
      koreanInc, koreanKrw, cellFillna, cellStr, dropBothMissing, KRW_TO_GBP_RATE, C5rec]
    norm_num
  · rw [abs_of_pos (by norm_num : (0:ℚ) < 200/7 - 2857/100)]
    norm_num

/-- C10: a table with a Transaction ID column but no Date column selects the
Monzo branch and normalize_uploaded_data raises instead of returning; when an
Amount column is present the raise is precisely the KeyError on the missing
date label in the final row-drop step. -/
theorem C10_theorem (t : Table) (s : String)
    (hTID : t.names.contains "Transaction ID" = true)
    (hDate : t.names.contains "Date" = false) :
    (∃ e, normalize_uploaded_data t s = .error e) ∧
    (t.names.contains "Amount" = true →
      normalize_uploaded_data t s = .error (.keyError "date")) := by
  have hfmt : detectFormat t = .monzo := by
    rw [detectFormat, hTID]
    simp
  constructor
  · cases hb : monzoBranch t with
    | error e =>
      exact ⟨e, by simp [normalize_uploaded_data, hfmt, hb]⟩
    | ok p =>
      obtain ⟨flag, brows⟩ := p
      have hflag : flag = false := (monzoBranch_ok_eq t flag brows hb).1.trans hDate
      exact ⟨.keyError "date", by simp [normalize_uploaded_data, hfmt, hb, hflag]⟩
  · intro hAmt
    have hb : monzoBranch t = .ok (t.names.contains "Date", t.rows.map (monzoRow t.names)) := by
      rw [monzoBranch, hAmt]
      simp
    have hD2 : "Date" ∉ t.names := by simpa using hDate
    simp [normalize_uploaded_data, hfmt, hb, hD2]

/-- Input table of the C10 witness: Transaction ID and Amount columns but no
Date column. -/
def C10table : Table :=
  { names := ["Transaction ID", "Amount"]
    rows := [[.str "tx1", .str "5"]] }

/-- Witness for C10 at a concrete table. -/
theorem C10_witness :
    (∃ e, normalize_uploaded_data C10table "csv" = .error e) ∧
    normalize_uploaded_data C10table "csv" = .error (.keyError "date") := by
  have h := C10_theorem C10table "csv" (by decide) (by decide)
  exact ⟨h.1, h.2 (by decide)⟩

/-- C7: an upload whose filename ends in neither .csv nor .xlsx/.xls is
rejected with the unsupported-format error before any save, and every failing
upload leaves the persisted ledger exactly as it was. -/
theorem C7_theorem (hasFile : Bool) (filename : String) (csvParse : Option Table)
    (excelRows : List (List Cell)) (encrypted hasMs decryptOk : Bool)
    (existing : Option (List NRow)) :
    (∀ e, (api_upload hasFile filename csvParse excelRows encrypted hasMs decryptOk existing).1 =
        .error e →
      (api_upload hasFile filename csvParse excelRows encrypted hasMs decryptOk existing).2 =
        existing) ∧
    (hasFile = true → filename ≠ "" →
      strEndsWith (lowerStr filename) ".csv" = false →
      strEndsWith (lowerStr filename) ".xlsx" = false →
      strEndsWith (lowerStr filename) ".xls" = false →
      api_upload hasFile filename csvParse excelRows encrypted hasMs decryptOk existing =
        (.error .unsupportedFormat, existing)) := by
  constructor
  · intro e he
    rw [api_upload] at he ⊢
    cases hc : api_upload_core hasFile filename csvParse excelRows encrypted hasMs decryptOk
        existing with
    | error e2 =>
      rfl
    | ok p =>
      obtain ⟨o, combined⟩ := p
      simp [hc] at he
  · intro h1 h2 h3 h4 h5
    have hcore : api_upload_core hasFile filename csvParse excelRows encrypted hasMs decryptOk
        existing = .error .unsupportedFormat := by
      simp only [api_upload_core, h1, Bool.not_true, Bool.false_eq_true, if_false]
      rw [if_neg h2]
      simp only [h3, h4, h5, Bool.false_eq_true, if_false, Bool.or_self]
    rw [api_upload, hcore]

/-- Content of the ledger already on disk in the C7 witness. -/
def C7rec : NRow :=
  { date := some (.ymd 2025 1 1 0), time := .str "", bank := "Monzo",
    type := .str "", merchant := .str "Tesco", category := .str "Groceries",
    amount_gbp := some (-5), original_currency := "GBP",
    original_amount := some (-5), is_income := false }

/-- Witness for C7: a .txt upload is rejected as unsupported and the
persisted ledger is unchanged. -/
theorem C7_witness :
    api_upload true "statement.txt" none [] false false false (some [C7rec]) =
      (.error .unsupportedFormat, some [C7rec]) :=
  (C7_theorem true "statement.txt" none [] false false false (some [C7rec])).2
    rfl (by decide) (by decide) (by decide) (by decide)

/-- C8 (amended): the header scan inspects only the first 15 rows and returns
the first row containing a marker cell; when none matches, the top row is
taken as the header — after which full format detection runs on the resulting
table (not necessarily the generic branch). -/
theorem C8_amended_theorem :
    (∀ rows : List (List Cell), detectHeaderRow rows = detectHeaderRow (rows.take 15)) ∧
    (∀ (rows : List (List Cell)) (i : ℕ), detectHeaderRow rows = some i →
      i < 15 ∧ rowHasMarker (rows.getD i []) = true ∧
      ∀ j, j < i → rowHasMarker (rows.getD j []) = false) ∧
    (∀ rows : List (List Cell), detectHeaderRow rows = none →
      readSpreadsheet rows = tableWithHeader rows 0) := by
  refine ⟨?_, ?_, ?_⟩
  · intro rows
    rw [detectHeaderRow, detectHeaderRow]
    have hlen : min 15 (rows.take 15).length = min 15 rows.length := by
      rw [List.length_take]
      omega
    rw [hlen]
    exact (findHeaderGo_take rows (min 15 rows.length) 0 (by omega)).symm
  · intro rows i h
    rw [detectHeaderRow] at h
    obtain ⟨h1, h2, h3, h4⟩ := findHeaderGo_some rows (min 15 rows.length) 0 i h
    exact ⟨by omega, h3, fun j hj => h4 j (by omega) hj⟩
  · intro rows h
    rw [readSpreadsheet, h]

/-- Marker-free spreadsheet rows for the C8 amended witness. -/
def C8wrows : List (List Cell) :=
  [[.str "Date", .str "Amount"], [.str "2025-01-01", .str "3"]]

/-- Witness for C8 (amended) at concrete rows with no marker: the top row
becomes the header. -/
theorem C8_amended_witness :
    readSpreadsheet C8wrows = tableWithHeader C8wrows 0 :=
  C8_amended_theorem.2.2 C8wrows (by decide)

/-- Spreadsheet rows whose top row is a Monzo header: no Korean marker
appears in the first 15 rows. -/
def C8crows : List (List Cell) :=
  [[.str "Transaction ID", .str "Date", .str "Money In", .str "Money Out"],
   [.str "tx1", .str "01/02/2024", .str "5", .str "0"]]

/-- Counterexample to C8 as stated: with no marker row the top row becomes
the header, but the resulting table is classified as the Monzo format, not
the generic path. -/
theorem C8_counterexample :
    detectHeaderRow C8crows = none ∧
    detectFormat (readSpreadsheet C8crows) = .monzo ∧
    Fmt.monzo ≠ Fmt.generic := by decide

/-- Monzo table with Money In = 10 and Money Out = 20 on one row. -/
def C1table : Table :=
  { names := ["Date", "Money In", "Money Out"]
    rows := [[.str "01/02/2024", .num 10, .num 20]] }

/-- Record the C1 counterexample table normalizes to. -/
def C1rec : NRow :=
  { date := some (.ymd 2024 2 1 0), time := .str "", bank := "Monzo",
    type := .str "", merchant := .str "", category := .str "Other",
    amount_gbp := some (-10), original_currency := "GBP",
    original_amount := some (-10), is_income := true }

/-- Counterexample to C1 as stated: the Monzo branch can emit a record with
is_income = true and a strictly negative amount_base (Money In = 10 positive,
net amount 10 - 20 = -10), so is_income does not agree with the sign. -/
theorem C1_counterexample :
    normalize_uploaded_data C1table "csv" = .ok [C1rec] ∧
    C1rec.is_income = true ∧ C1rec.amount_gbp = some (-10) ∧
    (-10 : ℚ) ≠ 0 ∧ ¬ (0 : ℚ) < -10 := by
  refine ⟨?_, rfl, rfl, by norm_num, by norm_num⟩
  have hr : C1table.rows = [[.str "01/02/2024", .num 10, .num 20]] := rfl
  have hn : C1table.names = ["Date", "Money In", "Money Out"] := rfl
  have h1 : detectFormat C1table = .monzo := by decide
  simp [normalize_uploaded_data, h1, hr, hn, C1rec, monzoBranch, monzoRow, monzoAmt,
    monzoMoneyIn, cellOf, toNumericCell, parseDec, parseDMY, dropBothMissing,
    List.findIdx?, allDigits, digitsToNat, daysInMonth, List.splitOn, List.contains]
  norm_num

/-- C1 (amended): the sign invariant `is_income = (amount_base > 0)` holds,
whenever amount_base is nonzero, for every record produced by the Korean and
generic branches, and by the Monzo branch when the input has no Money In
column; the Monzo branch with a Money In column (and load_korean_excel) can
violate it. -/
theorem C1_amended_theorem (t : Table) (s : String) (rows : List NRow)
    (hok : normalize_uploaded_data t s = .ok rows)
    (hbr : detectFormat t = .korean ∨ detectFormat t = .generic ∨
      (detectFormat t = .monzo ∧ t.names.contains "Money In" = false))
    (r : NRow) (hr : r ∈ rows) (q : ℚ) (hq : r.amount_gbp = some q) (h0 : q ≠ 0) :
    (r.is_income = true ↔ 0 < q) := by
  rcases hbr with h | h | ⟨h, hMI⟩
  · rw [normalize_korean_eq t s h] at hok
    injection hok with hok
    subst hok
    rw [dropBothMissing] at hr
    have hr2 := (List.mem_filter.mp hr).1
    rw [koreanRows] at hr2
    obtain ⟨x, _, hxr⟩ := List.mem_map.mp hr2
    subst hxr
    exact koreanRow_income_iff _ x q hq h0
  · rw [normalize_generic_eq t s h] at hok
    injection hok with hok
    subst hok
    rw [dropBothMissing] at hr
    have hr2 := (List.mem_filter.mp hr).1
    rw [genericRows] at hr2
    obtain ⟨x, _, hxr⟩ := List.mem_map.mp hr2
    subst hxr
    exact genericRow_income_iff _ x q hq
  · cases hb : monzoBranch t with
    | error e =>
      simp [normalize_uploaded_data, h, hb] at hok
    | ok p =>
      obtain ⟨flag, brows⟩ := p
      obtain ⟨hflag, hbrows⟩ := monzoBranch_ok_eq t flag brows hb
      cases hf : flag with
      | false =>
        simp [normalize_uploaded_data, h, hb, hf] at hok
      | true =>
        simp only [normalize_uploaded_data, h, hb, hf, if_pos, Except.ok.injEq] at hok
        subst hok
        rw [dropBothMissing] at hr
        have hr2 := (List.mem_filter.mp hr).1
        rw [hbrows] at hr2
        obtain ⟨x, _, hxr⟩ := List.mem_map.mp hr2
        subst hxr
        exact monzoRow_income_iff t.names x q hMI hq

/-- Korean table for the C1 amended witness: a 결제 (payment) row whose
normalized amount is strictly negative. -/
def C1wtable : Table :=
  { names := ["날짜(Date)", "종류(Payment type)", "가맹점 이름", "원화금액(KRW)"]
    rows := [[.str "2025.01.02", .str "결제", .str "Shop", .num 50000]] }

/-- Record the C1 amended witness table normalizes to. -/
def C1wrec : NRow :=
  { date := some (.ymd 2025 1 2 0), time := .str "", bank := "TravelWallet (Korea)",
    type := .str "결제", merchant := .str "Shop", category := .str "Shop",
    amount_gbp := some (-(200/7)), original_currency := "KRW",
    original_amount := some 50000, is_income := false }

/-- Witness for C1 (amended) at a concrete Korean spending row. -/
theorem C1_amended_witness : (C1wrec.is_income = true ↔ (0 : ℚ) < -(200/7)) := by
  have h1 : detectFormat C1wtable = .korean := by decide
  have hok : normalize_uploaded_data C1wtable "excel" = .ok [C1wrec] := by
    have h2 : koreanCtx C1wtable = ⟨some 3, some 3, some 0, none, some 1, some 2⟩ := by decide
    have h3 : koreanIncomeMatch "결제" = false := by decide
    have h4 : parseDateFree "2025.01.02" = some (.ymd 2025 1 2 0) := by decide
    have hr : C1wtable.rows = [[.str "2025.01.02", .str "결제", .str "Shop", .num 50000]] := rfl
    simp [normalize_korean_eq C1wtable "excel" h1, h2, h3, h4, hr, koreanRows, koreanRow,
      koreanInc, koreanKrw, cellFillna, cellStr, dropBothMissing, KRW_TO_GBP_RATE, C1wrec]
    norm_num
  exact C1_amended_theorem C1wtable "excel" [C1wrec] hok (Or.inl h1) C1wrec
    (List.mem_singleton.mpr rfl) (-(200/7)) rfl (by norm_num)

lemma kFileRowE_ok (aj : ℕ) (mj tj dj : Option ℕ) (row : List Cell) (r : NRow)
    (h : kFileRowE aj mj tj dj row = .ok r) : ∃ d, r = kFileRow aj mj tj row d := by
  cases hd : kFileDateE dj row with
  | error e =>
    simp only [kFileRowE, hd] at h
    cases h
  | ok d =>
    simp only [kFileRowE, hd] at h
    injection h with h
    exact ⟨d, h.symm⟩

/-- Decomposition of every successful load_korean_excel call: each returned
record comes from kFileRow applied to an input row with the resolved
amount/merchant/type columns. -/
lemma load_korean_excel_ok_shape (t : Table) (rows : List NRow)
    (hok : load_korean_excel t = .ok rows) (r : NRow) (hr : r ∈ rows) :
    ∃ aj row d, (numericIdxs t).getLast? = some aj ∧ row ∈ t.rows ∧
      r = kFileRow aj (kFileMerchantIdx t) (kFileTypeIdx t) row d := by
  rw [load_korean_excel] at hok
  by_cases he : t.rows.isEmpty = true
  · rw [if_pos he] at hok
    injection hok with h
    subst h
    cases hr
  · rw [if_neg he] at hok
    cases hlast : (numericIdxs t).getLast? with
    | none =>
      rw [hlast] at hok
      injection hok with h
      subst h
      cases hr
    | some aj =>
      simp only [hlast] at hok
      cases hmap : mapExcept
          (kFileRowE aj (kFileMerchantIdx t) (kFileTypeIdx t) (kFileDateIdx t)) t.rows with
      | error e =>
        simp only [hmap] at hok
        cases hok
      | ok rows0 =>
        simp only [hmap] at hok
        have hrows : rows = rows0 := by
          cases htj : kFileTypeIdx t with
          | none => simp only [htj] at hok; injection hok with h; exact h.symm
          | some j =>
            simp only [htj] at hok
            by_cases hnum : colIsNumeric t j = true
            · rw [if_pos hnum] at hok; cases hok
            · rw [if_neg hnum] at hok; injection hok with h; exact h.symm
        subst hrows
        obtain ⟨row, hrow, hfr⟩ := mapExcept_ok_mem hmap r hr
        obtain ⟨d, hd⟩ := kFileRowE_ok _ _ _ _ _ _ hfr
        exact ⟨aj, row, d, rfl, hrow, hd⟩

/-- Input table for the C4 counterexample: a 충전 row fed to
load_korean_excel. -/
def C4table : Table :=
  { names := ["날짜(Date)", "종류(Payment type)", "가맹점 이름", "원화금액(KRW)"]
    rows := [[.null, .str "충전", .str "M", .num 50000]] }

/-- Record the C4 counterexample table produces under load_korean_excel. -/
def C4rec : NRow :=
  { date := none, time := .str "", bank := "TravelWallet (Korea)",
    type := .str "충전", merchant := .str "M", category := .str "M",
    amount_gbp := some (200/7), original_currency := "KRW",
    original_amount := some 50000, is_income := false }

/-- Counterexample to C4 as stated: in load_korean_excel a row whose
localized type field is 충전 — which the top-up vocabulary matches — still
gets is_income = false, because that implementation compares the lower-cased
trimmed type for exact equality with the English word charge. -/
theorem C4_counterexample :
    load_korean_excel C4table = .ok [C4rec] ∧
    koreanIncomeMatch "충전" = true ∧ C4rec.is_income = false := by
  refine ⟨?_, by decide, rfl⟩
  have h1 : (numericIdxs C4table).getLast? = some 3 := by decide
  have h2 : kFileMerchantIdx C4table = some 2 := by decide
  have h3 : kFileTypeIdx C4table = some 1 := by decide
  have h4 : kFileDateIdx C4table = some 0 := by decide
  have h5 : colIsNumeric C4table 1 = false := by decide
  have h6 : C4table.rows.isEmpty = false := by decide
  have h7 : chargeEq (.str "충전") = false := by decide
  have hr : C4table.rows = [[.null, .str "충전", .str "M", .num 50000]] := rfl
  simp [load_korean_excel, h1, h2, h3, h4, h5, h6, h7, hr, mapExcept, kFileRowE, kFileDateE,
    parseDateStrict, kFileRow, KRW_TO_GBP_RATE, C4rec]
  norm_num

/-- C4 (amended): in the app.py Korean branch is_income is exactly the
case-insensitive substring match of the type text against the top-up
vocabulary and the converted amount is non-negative for matching rows and
non-positive otherwise; in load_korean_excel is_income is instead exact
equality of the lower-cased trimmed type with charge, and amount_base keeps
the source sign (original_amount times the rate, never flipped). -/
theorem C4_amended_theorem :
    (∀ (t : Table) (s : String) (rows : List NRow), detectFormat t = .korean →
      normalize_uploaded_data t s = .ok rows → ∀ r ∈ rows,
        r.is_income = koreanIncomeCell r.type ∧
        ∀ q, r.amount_gbp = some q → (if r.is_income then 0 ≤ q else q ≤ 0)) ∧
    (∀ (t : Table) (rows : List NRow), load_korean_excel t = .ok rows → ∀ r ∈ rows,
      r.amount_gbp = r.original_amount.map (fun v => v * KRW_TO_GBP_RATE) ∧
      ((kFileTypeIdx t).isSome = true → r.is_income = chargeEq r.type)) := by
  constructor
  · intro t s rows h hok r hr
    rw [normalize_korean_eq t s h] at hok
    injection hok with hok
    subst hok
    rw [dropBothMissing] at hr
    have hr2 := (List.mem_filter.mp hr).1
    rw [koreanRows] at hr2
    obtain ⟨x, _, hxr⟩ := List.mem_map.mp hr2
    subst hxr
    exact ⟨koreanRow_income_type _ x, fun q hq => koreanRow_amount_sign _ x q hq⟩
  · intro t rows hok r hr
    obtain ⟨aj, row, d, _, _, hshape⟩ := load_korean_excel_ok_shape t rows hok r hr
    subst hshape
    refine ⟨kFileRow_amount_rate aj _ _ row d, fun hsome => ?_⟩
    obtain ⟨j, hj⟩ := Option.isSome_iff_exists.mp hsome
    rw [hj]
    exact kFileRow_income_type aj (kFileMerchantIdx t) j row d

/-- Korean sheet for the C4 amended witness: one payment row for the app
branch clause. -/
def C4wtable : Table :=
  { names := ["날짜(Date)", "종류(Payment type)", "가맹점 이름", "원화금액(KRW)"]
    rows := [[.str "2025.01.02", .str "결제", .str "Shop", .num 50000]] }

/-- Record the C4 amended witness table normalizes to under the app branch. -/
def C4wrec : NRow :=
  { date := some (.ymd 2025 1 2 0), time := .str "", bank := "TravelWallet (Korea)",
    type := .str "결제", merchant := .str "Shop", category := .str "Shop",
    amount_gbp := some (-(200/7)), original_currency := "KRW",
    original_amount := some 50000, is_income := false }

/-- Witness for C4 (amended), applying both clauses at concrete inputs. -/
theorem C4_amended_witness :
    (C4wrec.is_income = koreanIncomeCell C4wrec.type) ∧
    (C4rec.amount_gbp = C4rec.original_amount.map (fun v => v * KRW_TO_GBP_RATE)) := by
  have h1 : detectFormat C4wtable = .korean := by decide
  have hok : normalize_uploaded_data C4wtable "excel" = .ok [C4wrec] := by
    have h2 : koreanCtx C4wtable = ⟨some 3, some 3, some 0, none, some 1, some 2⟩ := by decide
    have h3 : koreanIncomeMatch "결제" = false := by decide
    have h4 : parseDateFree "2025.01.02" = some (.ymd 2025 1 2 0) := by decide
    have hr : C4wtable.rows = [[.str "2025.01.02", .str "결제", .str "Shop", .num 50000]] := rfl
    simp [normalize_korean_eq C4wtable "excel" h1, h2, h3, h4, hr, koreanRows, koreanRow,
      koreanInc, koreanKrw, cellFillna, cellStr, dropBothMissing, KRW_TO_GBP_RATE, C4wrec]
    norm_num
  have hC4 : load_korean_excel C4table = .ok [C4rec] := by
    have h1b : (numericIdxs C4table).getLast? = some 3 := by decide
    have h2b : kFileMerchantIdx C4table = some 2 := by decide
    have h3b : kFileTypeIdx C4table = some 1 := by decide
    have h4b : kFileDateIdx C4table = some 0 := by decide
    have h5b : colIsNumeric C4table 1 = false := by decide
    have h6b : C4table.rows.isEmpty = false := by decide
    have h7b : chargeEq (.str "충전") = false := by decide
    have hrb : C4table.rows = [[.null, .str "충전", .str "M", .num 50000]] := rfl
    simp [load_korean_excel, h1b, h2b, h3b, h4b, h5b, h6b, h7b, hrb, mapExcept, kFileRowE,
      kFileDateE, parseDateStrict, kFileRow, KRW_TO_GBP_RATE, C4rec]
    norm_num
  constructor
  · exact ((C4_amended_theorem.1 C4wtable "excel" [C4wrec] h1 hok C4wrec
      (List.mem_singleton.mpr rfl)).1)
  · exact (C4_amended_theorem.2 C4table [C4rec] hC4 C4rec (List.mem_singleton.mpr rfl)).1

instance {ε α : Type _} [DecidableEq ε] [DecidableEq α] : DecidableEq (Except ε α) := fun a b =>
  match a, b with
  | .error e1, .error e2 =>
      decidable_of_iff (e1 = e2) ⟨fun h => by rw [h], fun h => by injection h⟩
  | .error _, .ok _ => isFalse (fun h => by injection h)
  | .ok _, .error _ => isFalse (fun h => by injection h)
  | .ok a1, .ok a2 =>
      decidable_of_iff (a1 = a2) ⟨fun h => by rw [h], fun h => by injection h⟩

lemma keepPred_eq (r : NRow) :
    (!(r.date.isNone && r.amount_gbp.isNone)) = (r.date.isSome || r.amount_gbp.isSome) := by
  cases hd : r.date <;> cases ha : r.amount_gbp <;> rfl

lemma normalize_ok_eq_drop (t : Table) (s : String) (rows : List NRow)
    (hok : normalize_uploaded_data t s = .ok rows) :
    rows = dropBothMissing (preNormRows t) := by
  cases hf : detectFormat t with
  | korean =>
    rw [normalize_korean_eq t s hf] at hok
    injection hok with h
    simp only [preNormRows, hf]
    exact h.symm
  | generic =>
    rw [normalize_generic_eq t s hf] at hok
    injection hok with h
    simp only [preNormRows, hf]
    exact h.symm
  | monzo =>
    cases hb : monzoBranch t with
    | error e =>
      simp [normalize_uploaded_data, hf, hb] at hok
    | ok p =>
      obtain ⟨flag, brows⟩ := p
      obtain ⟨hflag, hbrows⟩ := monzoBranch_ok_eq t flag brows hb
      cases hfl : flag with
      | false =>
        simp [normalize_uploaded_data, hf, hb, hfl] at hok
      | true =>
        simp only [normalize_uploaded_data, hf, hb, hfl, if_pos, Except.ok.injEq] at hok
        simp only [preNormRows, hf]
        rw [← hbrows, ← hok]

/-- C9 (amended): the three branches of normalize_uploaded_data drop exactly
the rows in which both date and amount are missing — every returned record
has one of the two, and every normalized row with one of the two is
returned — with no per-row error (the non-Monzo branches always succeed);
load_korean_excel, however, drops nothing: whenever it returns a table it
returns one record per input row, including rows missing both fields. -/
theorem C9_amended_theorem :
    (∀ (t : Table) (s : String) (rows : List NRow), normalize_uploaded_data t s = .ok rows →
      ∀ r ∈ rows, r ∈ preNormRows t ∧ (r.date.isSome || r.amount_gbp.isSome) = true) ∧
    (∀ (t : Table) (s : String) (rows : List NRow), normalize_uploaded_data t s = .ok rows →
      ∀ r ∈ preNormRows t, (r.date.isSome || r.amount_gbp.isSome) = true → r ∈ rows) ∧
    (∀ (t : Table) (rows : List NRow) (aj : ℕ), (numericIdxs t).getLast? = some aj →
      load_korean_excel t = .ok rows → rows.length = t.rows.length) ∧
    (∀ (t : Table) (s : String), detectFormat t ≠ .monzo →
      ∃ rows, normalize_uploaded_data t s = .ok rows) := by
  refine ⟨?_, ?_, ?_, ?_⟩
  · intro t s rows hok r hr
    rw [normalize_ok_eq_drop t s rows hok, dropBothMissing] at hr
    exact ⟨(List.mem_filter.mp hr).1, keepPred_eq r ▸ (List.mem_filter.mp hr).2⟩
  · intro t s rows hok r hr hkeep
    rw [normalize_ok_eq_drop t s rows hok, dropBothMissing]
    exact List.mem_filter.mpr ⟨hr, (keepPred_eq r).symm ▸ hkeep⟩
  · intro t rows aj hlast hok
    rw [load_korean_excel] at hok
    by_cases he : t.rows.isEmpty = true
    · rw [if_pos he] at hok
      injection hok with h
      subst h
      rw [List.isEmpty_iff.mp he]
      rfl
    · rw [if_neg he] at hok
      simp only [hlast] at hok
      cases hmap : mapExcept
          (kFileRowE aj (kFileMerchantIdx t) (kFileTypeIdx t) (kFileDateIdx t)) t.rows with
      | error e =>
        simp only [hmap] at hok
        cases hok
      | ok rows0 =>
        simp only [hmap] at hok
        have hrows : rows = rows0 := by
          cases htj : kFileTypeIdx t with
          | none => simp only [htj] at hok; injection hok with h; exact h.symm
          | some j =>
            simp only [htj] at hok
            by_cases hnum : colIsNumeric t j = true
            · rw [if_pos hnum] at hok; cases hok
            · rw [if_neg hnum] at hok; injection hok with h; exact h.symm
        subst hrows
        exact mapExcept_ok_length hmap
  · intro t s hne
    cases hf : detectFormat t with
    | monzo => exact absurd hf hne
    | korean => exact ⟨_, normalize_korean_eq t s hf⟩
    | generic => exact ⟨_, normalize_generic_eq t s hf⟩

/-- Input table for the C9 counterexample: a load_korean_excel sheet whose
single row has a missing date and a missing amount. -/
def C9table : Table :=
  { names := ["날짜(Date)", "종류(Payment type)", "가맹점 이름", "원화금액(KRW)"]
    rows := [[.null, .str "충전", .str "M", .null]] }

/-- Record the C9 counterexample table produces: both date and amount are
missing, yet the row is returned. -/
def C9rec : NRow :=
  { date := none, time := .str "", bank := "TravelWallet (Korea)",
    type := .str "충전", merchant := .str "M", category := .str "M",
    amount_gbp := none, original_currency := "KRW",
    original_amount := none, is_income := false }

/-- Counterexample to C9 as stated: load_korean_excel retains a row whose
date and amount are both missing, so not every normalizer drops such rows. -/
theorem C9_counterexample :
    load_korean_excel C9table = .ok [C9rec] ∧
    C9rec.date = none ∧ C9rec.amount_gbp = none := by decide

/-- Generic-branch table for the C9 witness. -/
def C9wtable : Table :=
  { names := ["date", "value"]
    rows := [[.str "2025-01-03", .null]] }

/-- Witness for C9 (amended): the no-drop length law of load_korean_excel at
a concrete sheet, and totality of a non-Monzo normalize call. -/
theorem C9_amended_witness :
    ([C9rec].length = C9table.rows.length) ∧
    (∃ rows, normalize_uploaded_data C9wtable "csv" = .ok rows) := by
  constructor
  · exact C9_amended_theorem.2.2.1 C9table [C9rec] 3 (by decide) (by decide)
  · exact C9_amended_theorem.2.2.2 C9wtable "csv" (by decide)

/-- C2 (amended): the api_upload merge concatenates the existing ledger with
the new records and removes exact full-record duplicates, keeping first
occurrences (the result is duplicate-free, a sublist of the concatenation,
and has the same members) but is persisted in concatenation order, not
sorted; the CLI merge normalize_and_merge sorts the concatenation ascending
by date (missing dates last) but removes no duplicates (its result is a
permutation of the concatenation). -/
theorem C2_amended_theorem :
    (∀ existing new : List NRow,
      (apiMerge existing new).Nodup ∧
      (apiMerge existing new).Sublist (existing ++ new) ∧
      ∀ r, r ∈ apiMerge existing new ↔ r ∈ existing ++ new) ∧
    (∀ monzo_df korean_df : List NRow,
      (normalize_and_merge monzo_df korean_df).Perm (monzo_df ++ korean_df) ∧
      ledgerSortedByDate (normalize_and_merge monzo_df korean_df)) := by
  constructor
  · intro e n
    exact ⟨nodup_dropDupGo [] (e ++ n), sublist_dropDupGo [] (e ++ n),
      fun r => mem_dropDuplicates⟩
  · intro m k
    constructor
    · rw [normalize_and_merge, sortByDate]
      exact List.mergeSort_perm (m ++ k) _
    · rw [ledgerSortedByDate, normalize_and_merge, sortByDate]
      exact List.sorted_mergeSort
        (fun a b c hab hbc => odateLe_trans a.date b.date c.date hab hbc)
        (fun a b => odateLe_total a.date b.date) (m ++ k)

/-- Existing-ledger record of the C2 counterexample (the later date). -/
def C2recA : NRow :=
  { date := some (.ymd 2025 2 1 0), time := .str "", bank := "Monzo",
    type := .str "", merchant := .str "A", category := .str "Other",
    amount_gbp := some (-5), original_currency := "GBP",
    original_amount := some (-5), is_income := false }

/-- Newly imported record of the C2 counterexample (the earlier date). -/
def C2recB : NRow :=
  { date := some (.ymd 2025 1 1 0), time := .str "", bank := "Monzo",
    type := .str "", merchant := .str "B", category := .str "Other",
    amount_gbp := some 3, original_currency := "GBP",
    original_amount := some 3, is_income := true }

/-- Counterexample to C2 as stated: merging distinct records whose dates are
out of order leaves the api_upload result unsorted — the persisted order is
the concatenation order, not ascending by date. -/
theorem C2_counterexample :
    apiMerge [C2recA] [C2recB] = [C2recA, C2recB] ∧
    ¬ ledgerSortedByDate [C2recA, C2recB] := by
  constructor
  · simp [apiMerge, dropDuplicates, dropDupGo, C2recA, C2recB]
  · intro h
    have hle := List.rel_of_pairwise_cons h (List.mem_singleton.mpr rfl)
    have hfalse : odateLe C2recA.date C2recB.date = false := by
      rw [C2recA, C2recB]
      simp only [odateLe, dateKey, daysFromCivil]
      norm_num
    rw [hfalse] at hle
    cases hle

/-- Witness for C2 (amended) at concrete one-record ledgers. -/
theorem C2_amended_witness :
    (apiMerge [C2recA] [C2recB]).Nodup ∧
    (normalize_and_merge [C2recA] [C2recB]).Perm ([C2recA] ++ [C2recB]) := by
  exact ⟨(C2_amended_theorem.1 [C2recA] [C2recB]).1,
    (C2_amended_theorem.2 [C2recA] [C2recB]).1⟩

end FinApp
